import Mathlib

/-!
Shallow embedding of the Task Lifecycle & Realtime Synchronization subsystem
of the fanqie-reader frontend:

* the task store (`store/index.ts`, `useTaskStore`): the in-memory
  repository of `DownloadTask` rows and the actions `fetchTasks`,
  `terminateTask`, `deleteTask`, `redownloadTask`, `updateTaskFromWebSocket`;
* the WebSocket client (`api.ts`, `WebSocketAPI`): `connect`, `disconnect`,
  `isConnected`, modelled as an event-driven state machine over the
  server-to-client events `request_auth`, `auth_response`, `task_update`;
* the task view (`TasksView.vue`): the per-row action buttons' render
  conditions and the click handlers with their `activeTaskId` / `actionType`
  refs;
* the logout path (`HomeView.vue`): the conditional channel teardown on
  session loss.

Machine floats never enter the claims checked here, so `progress` is kept
as a rational; ISO timestamps stay strings and compare lexicographically.
-/

/-- Wire values of the task status enum (`TaskStatusEnum` in `api.ts`). -/
inductive TaskStatusEnum where
  | PENDING
  | DOWNLOADING
  | PROCESSING
  | COMPLETED
  | FAILED
  | TERMINATED
deriving DecidableEq, Repr

/-- Embedded novel snapshot carried by a task (`DownloadTask.novel`). -/
structure NovelRef where
  id : String
  title : String
  author : Option String
deriving DecidableEq, Repr

/-- `DownloadTask` row as declared in `api.ts` (id is a number there;
`deleted` is the optional local-only flag, defaulting to absent/false). -/
structure DownloadTask where
  id : Nat
  user_id : Nat
  novel_id : String
  novel : Option NovelRef
  celery_task_id : Option String
  status : TaskStatusEnum
  progress : ℚ
  message : Option String
  created_at : Option String
  updated_at : Option String
  deleted : Bool := false
deriving DecidableEq, Repr

/-- JavaScript `Array.prototype.findIndex`, with the not-found sentinel `-1`
rendered as `none`. The store always immediately branches on `index !== -1`,
so this is the exact shape the code consumes. -/
def jsFindIndex (p : α → Bool) : List α → Option Nat
  | [] => none
  | x :: xs => if p x then some 0 else (jsFindIndex p xs).map (· + 1)

/-- Body of `useTaskStore.updateTaskFromWebSocket` (store/index.ts): find the
row with the incoming id; overwrite it in place when found, push at the tail
otherwise. No timestamp comparison and no validation is performed. -/
def updateTaskFromWebSocket (tasks : List DownloadTask) (taskData : DownloadTask) :
    List DownloadTask :=
  match jsFindIndex (fun t => t.id == taskData.id) tasks with
  | some index => tasks.set index taskData
  | none => tasks ++ [taskData]

/-- Read accessor over the store collection: first row carrying the id
(`taskStore.tasks.find(t => t.id === id)`, as the views consume rows). -/
def getTask (tasks : List DownloadTask) (id : Nat) : Option DownloadTask :=
  tasks.find? (fun t => t.id == id)

/-- Outcome of one REST call as the store sees it: a success payload, a
server-reported `{error}` body, or a thrown transport error (the `catch`
branch of each action). -/
inductive RestResult (α : Type) where
  | ok (value : α)
  | error (e : String)
  | thrown
deriving DecidableEq, Repr

/-- Success path of `useTaskStore.fetchTasks`: `this.tasks = response.tasks`,
a wholesale replacement; on `{error}` or a throw the collection is untouched
and `error` is set. Returns the new collection and the error field. -/
def fetchTasks (tasks : List DownloadTask)
    (response : RestResult (List DownloadTask)) :
    List DownloadTask × Option String :=
  match response with
  | .ok snapshot => (snapshot, none)
  | .error e => (tasks, some e)
  | .thrown => (tasks, some "fetch tasks failed")

/-- One REST endpoint invocation issued by the task subsystem. -/
inductive RestCall where
  | terminate (id : Nat)
  | delete (id : Nat)
  | redownload (id : Nat)
deriving DecidableEq, Repr

/-- Result of one store mutating action: the collection afterwards, the value
returned to the caller (`response.task` on success, `null` otherwise), the
store `error` field, and the REST calls the action issued. -/
structure ActionResult where
  tasks : List DownloadTask
  returned : Option DownloadTask
  error : Option String
  calls : List RestCall
deriving DecidableEq, Repr

/-- Body of `useTaskStore.terminateTask` (store/index.ts): the REST call is
issued unconditionally; on success the row at `findIndex(t => t.id === taskId)`
is overwritten with `response.task` only when that index is not `-1` (no
insertion of an unknown id); on `{error}` or a throw the collection is
untouched, `error` is set and `null` is returned. -/
def terminateTask (tasks : List DownloadTask) (taskId : Nat)
    (response : RestResult DownloadTask) : ActionResult :=
  match response with
  | .ok task =>
      match jsFindIndex (fun t => t.id == taskId) tasks with
      | some index => ⟨tasks.set index task, some task, none, [.terminate taskId]⟩
      | none => ⟨tasks, some task, none, [.terminate taskId]⟩
  | .error e => ⟨tasks, none, some e, [.terminate taskId]⟩
  | .thrown => ⟨tasks, none, some "terminate task failed", [.terminate taskId]⟩

/-- Body of `useTaskStore.redownloadTask`: identical control flow to
`terminateTask` over the redownload endpoint. No status precondition is
checked anywhere in the function. -/
def redownloadTask (tasks : List DownloadTask) (taskId : Nat)
    (response : RestResult DownloadTask) : ActionResult :=
  match response with
  | .ok task =>
      match jsFindIndex (fun t => t.id == taskId) tasks with
      | some index => ⟨tasks.set index task, some task, none, [.redownload taskId]⟩
      | none => ⟨tasks, some task, none, [.redownload taskId]⟩
  | .error e => ⟨tasks, none, some e, [.redownload taskId]⟩
  | .thrown => ⟨tasks, none, some "redownload task failed", [.redownload taskId]⟩

/-- Result of `useTaskStore.deleteTask`: collection, boolean returned to the
caller, error field, issued calls. -/
structure DeleteResult where
  tasks : List DownloadTask
  returned : Bool
  error : Option String
  calls : List RestCall
deriving DecidableEq, Repr

/-- Body of `useTaskStore.deleteTask`: on success
`this.tasks = this.tasks.filter(t => t.id !== taskId)` — immediate removal of
every row with the id, no tombstone; on `{error}` or a throw the collection
is untouched and `false` is returned. -/
def deleteTask (tasks : List DownloadTask) (taskId : Nat)
    (response : RestResult Unit) : DeleteResult :=
  match response with
  | .ok _ => ⟨tasks.filter (fun t => !(t.id == taskId)), true, none, [.delete taskId]⟩
  | .error e => ⟨tasks, false, some e, [.delete taskId]⟩
  | .thrown => ⟨tasks, false, some "delete task failed", [.delete taskId]⟩

/-- One repository mutation, for stating invariants over arbitrary call
sequences: a streamed upsert (`updateTaskFromWebSocket`) or a snapshot
replacement (the success path of `fetchTasks`). -/
inductive RepoOp where
  | upsert (task : DownloadTask)
  | replaceAll (snapshot : List DownloadTask)
deriving DecidableEq, Repr

/-- Application of a single repository mutation. -/
def applyRepoOp (tasks : List DownloadTask) : RepoOp → List DownloadTask
  | .upsert task => updateTaskFromWebSocket tasks task
  | .replaceAll snapshot => snapshot

/-- Application of a sequence of repository mutations, oldest first. -/
def runRepoOps (tasks : List DownloadTask) (ops : List RepoOp) : List DownloadTask :=
  ops.foldl applyRepoOp tasks

/-- Uniqueness invariant of §3: no two rows of the collection share an id. -/
def idsNodup (tasks : List DownloadTask) : Prop :=
  (tasks.map (fun t => t.id)).Nodup

instance : DecidablePred idsNodup := fun tasks => by
  unfold idsNodup
  infer_instance

/-- Server-to-client events of the realtime channel, as the handlers
registered by `WebSocketAPI.connect` (api.ts) observe them. `connected` and
`disconnected` are the transport-level socket.io events. -/
inductive ServerEvent where
  | connected
  | requestAuth
  | authResponse (success : Bool) (message : String)
  | taskUpdate (task : DownloadTask)
  | connectError (message : String)
  | disconnected (reason : String)
deriving DecidableEq, Repr

/-- Settlement state of the promise returned by `connect(token)`; a promise
settles at most once, later calls to resolve/reject are no-ops. -/
inductive ConnectOutcome where
  | pending
  | resolvedTrue
  | rejected (message : String)
deriving DecidableEq, Repr

/-- Transport object as far as the claims observe it (`socket.connected`). -/
structure Sock where
  connected : Bool
deriving DecidableEq, Repr

/-- Client-side state during one `connect(token)` call: the promise outcome,
whether `authenticate{token}` has been emitted, and the module-level socket
reference (`none` models `socket = null`). -/
structure ConnectState where
  outcome : ConnectOutcome
  emittedAuth : Bool
  socket : Option Sock
deriving DecidableEq, Repr

/-- Settle-once semantics of the `connect` promise. -/
def settle (s : ConnectState) (o : ConnectOutcome) : ConnectState :=
  match s.outcome with
  | .pending => { s with outcome := o }
  | _ => s

/-- One event-handler dispatch of the listeners registered by
`WebSocketAPI.connect` (api.ts):
`request_auth` emits `authenticate{token}` when a token is present and
otherwise disconnects and rejects; `auth_response{success:true}` resolves
true; `auth_response{success:false,m}` disconnects and rejects with
"Authentication failed: m"; `connect_error` nulls the socket and rejects;
the socket.io `disconnect` event nulls the module socket reference. -/
def stepConnect (token : Option String) (s : ConnectState) :
    ServerEvent → ConnectState
  | .connected => { s with socket := some ⟨true⟩ }
  | .requestAuth =>
      match token with
      | some _ => { s with emittedAuth := true }
      | none => settle { s with socket := none }
          (.rejected "No authentication token available.")
  | .authResponse true _ => settle s .resolvedTrue
  | .authResponse false m => settle { s with socket := none }
      (.rejected ("Authentication failed: " ++ m))
  | .taskUpdate _ => s
  | .connectError m => settle { s with socket := none } (.rejected m)
  | .disconnected _ => { s with socket := none }

/-- `WebSocketAPI.connect(token)` over a finite trace of server events: when
the module socket already reports connected, the promise resolves true
immediately; otherwise a fresh unconnected socket is created and the
registered handlers consume the trace in arrival order. -/
def runConnect (alreadyConnected : Bool) (token : Option String)
    (events : List ServerEvent) : ConnectState :=
  if alreadyConnected then ⟨.resolvedTrue, false, some ⟨true⟩⟩
  else events.foldl (stepConnect token) ⟨.pending, false, some ⟨false⟩⟩

/-- Module-level WebSocket client state outside a connect call: the socket
reference and whether a task-update subscriber is registered
(`taskUpdateCallback !== null`). -/
structure WSState where
  socket : Option Sock
  hasTaskUpdateCallback : Bool
deriving DecidableEq, Repr

/-- `WebSocketAPI.isConnected()`: `socket?.connected ?? false`. -/
def isConnected (ws : WSState) : Bool :=
  match ws.socket with
  | some s => s.connected
  | none => false

/-- `WebSocketAPI.disconnect()`: disconnects a connected socket, nulls the
socket reference when it exists, and clears the subscriber callback. Net
effect in every case: no socket, no callback. -/
def wsDisconnect (_ : WSState) : WSState :=
  ⟨none, false⟩

/-- Channel teardown performed when the session becomes unauthenticated
(HomeView.vue, both the logout command handler and the
`watch(isAuthenticated)` branch): `disconnect()` is invoked only inside
`if (api.WebSocketAPI.isConnected())`. -/
def logoutTeardown (ws : WSState) : WSState :=
  if isConnected ws then wsDisconnect ws else ws

/-- Mutating-action kinds tracked by the TasksView `actionType` ref. -/
inductive ActionKind where
  | terminate
  | delete
  | redownload
deriving DecidableEq, Repr

/-- TasksView refs `activeTaskId` / `actionType`, read only by the buttons'
`:loading` bindings. -/
structure GuardState where
  activeTaskId : Option Nat
  actionType : Option ActionKind
deriving DecidableEq, Repr

/-- TasksView click handler `terminateTask(taskId)`: it writes
`activeTaskId := taskId`, `actionType := 'terminate'` without ever reading
the previous values, awaits the confirm dialog, issues the store call when
confirmed, and the `finally` block resets both refs. The result is the final
guard state and the REST calls this submission issued. -/
def terminateTaskHandler (_ : GuardState) (taskId : Nat) (confirmed : Bool) :
    GuardState × List RestCall :=
  (⟨none, none⟩, if confirmed then [.terminate taskId] else [])

/-- TasksView click handler `deleteTask(taskId)`: same confirm-gated shape
as `terminateTaskHandler`, over the delete endpoint; no guard is read. -/
def deleteTaskHandler (_ : GuardState) (taskId : Nat) (confirmed : Bool) :
    GuardState × List RestCall :=
  (⟨none, none⟩, if confirmed then [.delete taskId] else [])

/-- TasksView click handler `redownloadTask(taskId)`: no confirm dialog, the
store call is issued unconditionally; no guard is read. -/
def redownloadTaskHandler (_ : GuardState) (taskId : Nat) :
    GuardState × List RestCall :=
  (⟨none, none⟩, [.redownload taskId])

/-- Render condition of the terminate button (TasksView.vue template): the
button group requires `!row.deleted` and the button itself
`['PENDING','DOWNLOADING','PROCESSING'].includes(row.status)`. -/
def showTerminateButton (row : DownloadTask) : Bool :=
  !row.deleted &&
    (row.status == .PENDING || row.status == .DOWNLOADING || row.status == .PROCESSING)

/-- Render condition of the redownload button (TasksView.vue template):
`!row.deleted` and `['COMPLETED','FAILED','TERMINATED'].includes(row.status)`. -/
def showRedownloadButton (row : DownloadTask) : Bool :=
  !row.deleted &&
    (row.status == .COMPLETED || row.status == .FAILED || row.status == .TERMINATED)

/-- Render condition of the delete button (TasksView.vue template): only the
button group's `!row.deleted` guards it. -/
def showDeleteButton (row : DownloadTask) : Bool :=
  !row.deleted

/-- Runtime shape of a pushed `task_update` payload: the TypeScript interface
declares `id: number`, but nothing validates the wire payload, so at runtime
the field may be absent (`undefined`, modelled as `none`). -/
structure RawTask where
  id : Option Nat
  status : TaskStatusEnum
  progress : ℚ
  message : Option String
  updated_at : Option String
deriving DecidableEq, Repr

/-- `updateTaskFromWebSocket` as executed on an unvalidated runtime payload:
the same findIndex/overwrite-or-push body, with JavaScript `===` on possibly
`undefined` ids (`undefined === undefined` is true, `undefined === n` is
false). -/
def updateTaskFromWebSocketRaw (tasks : List RawTask) (taskData : RawTask) :
    List RawTask :=
  match jsFindIndex (fun t => t.id == taskData.id) tasks with
  | some index => tasks.set index taskData
  | none => tasks ++ [taskData]

/-- Sample row: id 1, freshly created (`PENDING`). -/
def pendingTask1 : DownloadTask :=
  ⟨1, 1, "7143038691944959011", none, none, .PENDING, 0, none,
    some "2024-01-01T00:00:00", some "2024-01-01T00:00:00", false⟩

/-- Sample row: id 1 after scheduling (`DOWNLOADING`). -/
def downloadingTask1 : DownloadTask :=
  { pendingTask1 with status := .DOWNLOADING }

/-- Sample row: id 1 as reported by a newer snapshot. -/
def freshTask1 : DownloadTask :=
  { pendingTask1 with
    status := .DOWNLOADING
    progress := 1/2
    updated_at := some "2024-01-02T00:00:00" }

/-- Sample row: id 1 as carried by a stale push that was emitted before the
snapshot behind `freshTask1`. -/
def staleTask1 : DownloadTask :=
  { pendingTask1 with
    status := .PENDING
    updated_at := some "2024-01-01T12:00:00" }

/-- Sample row: id 5 while downloading. -/
def downloadingTask5 : DownloadTask :=
  ⟨5, 1, "7143038691944959012", none, none, .DOWNLOADING, 0, none,
    some "2024-01-01T00:00:00", some "2024-01-01T00:00:00", false⟩

/-- Sample row: id 5 as returned by a successful terminate call. -/
def terminatedTask5 : DownloadTask :=
  { downloadingTask5 with
    status := .TERMINATED
    updated_at := some "2024-01-01T01:00:00" }

/-- Sample runtime push payload that lacks the id field. -/
def noIdPayload : RawTask :=
  ⟨none, .PENDING, 0, none, none⟩

/-- Sample well-formed runtime row with id 1. -/
def rawTask1 : RawTask :=
  ⟨some 1, .DOWNLOADING, 0, none, some "2024-01-01T00:00:00"⟩

/-! Helper lemmas about `jsFindIndex`, `List.set`, `List.find?`, and the
connect state machine. -/

theorem jsFindIndex_eq_none_iff {α : Type} (p : α → Bool) (l : List α) :
    jsFindIndex p l = none ↔ ∀ x ∈ l, p x = false := by
  induction l with
  | nil => simp [jsFindIndex]
  | cons x xs ih =>
    cases hpx : p x with
    | true =>
      simp only [jsFindIndex, hpx, if_true]
      constructor
      · intro hcontra; exact absurd hcontra (by simp)
      · intro hall
        have := hall x (by simp)
        rw [hpx] at this
        exact absurd this (by simp)
    | false =>
      simp only [jsFindIndex, hpx, Bool.false_eq_true, if_false, Option.map_eq_none', ih,
        List.mem_cons]
      constructor
      · intro hall y hy
        rcases hy with rfl | hy
        · exact hpx
        · exact hall y hy
      · intro hall y hy
        exact hall y (Or.inr hy)

theorem jsFindIndex_eq_some {α : Type} (p : α → Bool) (l : List α) (i : Nat) :
    jsFindIndex p l = some i → i < l.length ∧ ∃ x, l[i]? = some x ∧ p x = true := by
  induction l generalizing i with
  | nil => intro h; exact absurd h (by simp [jsFindIndex])
  | cons x xs ih =>
    intro h
    cases hpx : p x with
    | true =>
      simp only [jsFindIndex, hpx, if_true, Option.some.injEq] at h
      subst h
      exact ⟨by simp, x, by simp, hpx⟩
    | false =>
      simp only [jsFindIndex, hpx, Bool.false_eq_true, if_false, Option.map_eq_some'] at h
      obtain ⟨j, hj, hji⟩ := h
      obtain ⟨hlt, y, hy, hpy⟩ := ih j hj
      subst hji
      refine ⟨by simpa using Nat.succ_lt_succ hlt, y, ?_, hpy⟩
      simpa [List.getElem?_cons_succ] using hy

theorem jsFindIndex_isSome_of_mem {α : Type} (p : α → Bool) (l : List α)
    (h : ∃ x ∈ l, p x = true) : ∃ i, jsFindIndex p l = some i := by
  induction l with
  | nil => simp at h
  | cons x xs ih =>
    cases hpx : p x with
    | true => exact ⟨0, by simp [jsFindIndex, hpx]⟩
    | false =>
      obtain ⟨y, hy, hpy⟩ := h
      rcases List.mem_cons.mp hy with rfl | hy
      · rw [hpx] at hpy; exact absurd hpy (by simp)
      · obtain ⟨i, hi⟩ := ih ⟨y, hy, hpy⟩
        exact ⟨i + 1, by simp [jsFindIndex, hpx, hi]⟩

theorem set_eq_self_of_lookup {α : Type} (l : List α) (i : Nat) (a : α)
    (h : l[i]? = some a) : l.set i a = l := by
  apply List.ext_getElem?
  intro j
  by_cases hij : i = j
  · subst hij
    rw [List.getElem?_set_self (List.getElem?_eq_some.mp h).1]
    exact h.symm
  · exact List.getElem?_set_ne hij

theorem find?_append_singleton {α : Type} (p : α → Bool) (l : List α) (d : α)
    (h : ∀ x ∈ l, p x = false) (hd : p d = true) : (l ++ [d]).find? p = some d := by
  induction l with
  | nil => simpa using List.find?_cons_of_pos [] hd
  | cons x xs ih =>
    have hx : p x = false := h x (by simp)
    rw [List.cons_append, List.find?_cons_of_neg _ (by simp [hx])]
    exact ih (fun y hy => h y (by simp [hy]))

theorem settle_emittedAuth (s : ConnectState) (o : ConnectOutcome) :
    (settle s o).emittedAuth = s.emittedAuth := by
  rcases h : s.outcome <;> simp [settle, h]

theorem settle_outcome_cases (s : ConnectState) (o : ConnectOutcome) :
    (settle s o).outcome = o ∨ (settle s o).outcome = s.outcome := by
  rcases h : s.outcome <;> simp [settle, h]

theorem stepConnect_emittedAuth_mono (token : Option String) (s : ConnectState)
    (ev : ServerEvent) (h : s.emittedAuth = true) :
    (stepConnect token s ev).emittedAuth = true := by
  cases ev with
  | connected => simpa [stepConnect] using h
  | requestAuth =>
    cases token with
    | some tk => simp [stepConnect]
    | none => rw [stepConnect, settle_emittedAuth]; simpa using h
  | authResponse success m =>
    cases success <;> rw [stepConnect, settle_emittedAuth] <;> simpa using h
  | taskUpdate t => simpa [stepConnect] using h
  | connectError m => rw [stepConnect, settle_emittedAuth]; simpa using h
  | disconnected r => simpa [stepConnect] using h

theorem foldl_emittedAuth_mono (token : Option String) (evs : List ServerEvent)
    (s : ConnectState) (h : s.emittedAuth = true) :
    (evs.foldl (stepConnect token) s).emittedAuth = true := by
  induction evs generalizing s with
  | nil => simpa using h
  | cons ev evs ih =>
    exact ih (stepConnect token s ev) (stepConnect_emittedAuth_mono token s ev h)

theorem emittedAuth_after_requestAuth (tk : String) (evs : List ServerEvent)
    (s : ConnectState) (h : ServerEvent.requestAuth ∈ evs) :
    (evs.foldl (stepConnect (some tk)) s).emittedAuth = true := by
  induction evs generalizing s with
  | nil => simp at h
  | cons ev evs ih =>
    rcases List.mem_cons.mp h with rfl | hmem
    · exact foldl_emittedAuth_mono (some tk) evs _ (by simp [stepConnect])
    · exact ih _ hmem

theorem stepConnect_resolvedTrue_source (token : Option String) (s : ConnectState)
    (ev : ServerEvent) (h : (stepConnect token s ev).outcome = .resolvedTrue) :
    s.outcome = .resolvedTrue ∨ ∃ m, ev = .authResponse true m := by
  cases ev with
  | connected => left; simpa [stepConnect] using h
  | requestAuth =>
    cases token with
    | some tk => left; simpa [stepConnect] using h
    | none =>
      left
      rw [stepConnect] at h
      rcases settle_outcome_cases _ _ with hc | hc <;> rw [hc] at h
      · exact absurd h (by simp)
      · simpa using h
  | authResponse success m =>
    cases success
    · left
      rw [stepConnect] at h
      rcases settle_outcome_cases _ _ with hc | hc <;> rw [hc] at h
      · exact absurd h (by simp)
      · simpa using h
    · exact Or.inr ⟨m, rfl⟩
  | taskUpdate t => left; simpa [stepConnect] using h
  | connectError m =>
    left
    rw [stepConnect] at h
    rcases settle_outcome_cases _ _ with hc | hc <;> rw [hc] at h
    · exact absurd h (by simp)
    · simpa using h
  | disconnected r => left; simpa [stepConnect] using h

theorem foldl_resolvedTrue_source (token : Option String) (evs : List ServerEvent)
    (s : ConnectState) (h : (evs.foldl (stepConnect token) s).outcome = .resolvedTrue) :
    s.outcome = .resolvedTrue ∨ ∃ m, ServerEvent.authResponse true m ∈ evs := by
  induction evs generalizing s with
  | nil => left; simpa using h
  | cons ev evs ih =>
    rcases ih (stepConnect token s ev) h with hstep | ⟨m, hm⟩
    · rcases stepConnect_resolvedTrue_source token s ev hstep with hs | ⟨m, rfl⟩
      · exact Or.inl hs
      · exact Or.inr ⟨m, by simp⟩
    · exact Or.inr ⟨m, by simp [hm]⟩

theorem upsert_preserves_idsNodup (ts : List DownloadTask) (t : DownloadTask)
    (h : idsNodup ts) : idsNodup (updateTaskFromWebSocket ts t) := by
  unfold updateTaskFromWebSocket
  cases hfi : jsFindIndex (fun s => s.id == t.id) ts with
  | some i =>
    obtain ⟨hlt, x, hx, hpx⟩ := jsFindIndex_eq_some _ _ _ hfi
    have hid : x.id = t.id := by simpa using hpx
    unfold idsNodup at h ⊢
    rw [List.map_set]
    have hlook : (ts.map (fun s => s.id))[i]? = some t.id := by
      rw [List.getElem?_map, hx, Option.map_some', hid]
    rw [set_eq_self_of_lookup _ _ _ hlook]
    exact h
  | none =>
    have hall := (jsFindIndex_eq_none_iff _ _).mp hfi
    unfold idsNodup at h ⊢
    rw [List.map_append, List.nodup_append]
    refine ⟨h, by simp, ?_⟩
    intro a ha hb
    have hat : a = t.id := by simpa using hb
    subst hat
    obtain ⟨y, hy, hyid⟩ := List.mem_map.mp ha
    have := hall y hy
    rw [hyid] at this
    simp at this

/-! Claim theorems. -/

/-- Claim C1: evaluation at the failing input. The pushed record
`staleTask1` carries an older `updated_at` than the stored `freshTask1` for
the same id, yet `updateTaskFromWebSocket` overwrites the row, so the stored
`updated_at` regresses below a previously observed value; the
`incoming.updated_at >= stored.updated_at` comparison the claim describes
does not exist in the code. -/
theorem stale_push_overwrites_fresher_row :
    updateTaskFromWebSocket [freshTask1] staleTask1 = [staleTask1] ∧
    staleTask1.id = freshTask1.id ∧
    staleTask1.updated_at = some "2024-01-01T12:00:00" ∧
    freshTask1.updated_at = some "2024-01-02T00:00:00" ∧
    "2024-01-01T12:00:00".data < "2024-01-02T00:00:00".data := by
  refine ⟨rfl, rfl, rfl, rfl, by decide⟩

/-- Claim C5: `upsert` (`updateTaskFromWebSocket`) of a task whose id is
stored overwrites the first row holding that id in place — same length, same
position, every other position untouched; a task with an unknown id is
appended at the tail; and concretely, a snapshot replacement with
`[pendingTask1]` followed by an upsert of `downloadingTask1` leaves a
one-row collection whose row with id 1 has status `DOWNLOADING`. -/
theorem upsert_overwrites_in_place_or_appends :
    ∀ (ts : List DownloadTask) (t : DownloadTask),
      ((∃ x ∈ ts, x.id = t.id) →
        ∃ i, i < ts.length ∧
          (∃ x, ts[i]? = some x ∧ x.id = t.id) ∧
          (updateTaskFromWebSocket ts t).length = ts.length ∧
          (updateTaskFromWebSocket ts t)[i]? = some t ∧
          (∀ j, j ≠ i → (updateTaskFromWebSocket ts t)[j]? = ts[j]?)) ∧
      ((∀ x ∈ ts, x.id ≠ t.id) → updateTaskFromWebSocket ts t = ts ++ [t]) ∧
      (getTask (updateTaskFromWebSocket (fetchTasks [] (.ok [pendingTask1])).1
            downloadingTask1) 1 = some downloadingTask1 ∧
        (updateTaskFromWebSocket (fetchTasks [] (.ok [pendingTask1])).1
            downloadingTask1).length = 1) := by
  intro ts t
  refine ⟨?_, ?_, rfl, rfl⟩
  · intro hex
    obtain ⟨i, hfi⟩ := jsFindIndex_isSome_of_mem (fun s => s.id == t.id) ts (by
      obtain ⟨x, hx, hid⟩ := hex
      exact ⟨x, hx, by simp [hid]⟩)
    obtain ⟨hlt, x, hx, hpx⟩ := jsFindIndex_eq_some _ _ _ hfi
    refine ⟨i, hlt, ⟨x, hx, by simpa using hpx⟩, ?_, ?_, ?_⟩
    · unfold updateTaskFromWebSocket
      rw [hfi]
      simp
    · unfold updateTaskFromWebSocket
      rw [hfi]
      exact List.getElem?_set_self hlt
    · intro j hj
      unfold updateTaskFromWebSocket
      rw [hfi]
      exact List.getElem?_set_ne (Ne.symm hj)
  · intro hall
    have hnone : jsFindIndex (fun s => s.id == t.id) ts = none :=
      (jsFindIndex_eq_none_iff _ _).mpr (fun x hx => beq_false_of_ne (hall x hx))
    unfold updateTaskFromWebSocket
    rw [hnone]

/-- Witness for claim C5, at a stored collection `[pendingTask1]` and the
incoming row `downloadingTask1` sharing id 1. -/
theorem upsert_overwrites_in_place_or_appends_witness :
    ∃ i, i < ([pendingTask1] : List DownloadTask).length ∧
      (∃ x, ([pendingTask1] : List DownloadTask)[i]? = some x ∧
        x.id = downloadingTask1.id) ∧
      (updateTaskFromWebSocket [pendingTask1] downloadingTask1).length =
        ([pendingTask1] : List DownloadTask).length ∧
      (updateTaskFromWebSocket [pendingTask1] downloadingTask1)[i]? =
        some downloadingTask1 ∧
      (∀ j, j ≠ i →
        (updateTaskFromWebSocket [pendingTask1] downloadingTask1)[j]? =
          ([pendingTask1] : List DownloadTask)[j]?) :=
  (upsert_overwrites_in_place_or_appends [pendingTask1] downloadingTask1).1
    ⟨pendingTask1, by simp, rfl⟩

/-- Claim C6, counterexample: `fetchTasks` installs the server list verbatim
(`this.tasks = response.tasks`), so a single snapshot replacement whose list
repeats id 1 leaves the repository with two rows sharing an id. -/
theorem replaceAll_with_duplicate_ids_breaks_uniqueness :
    pendingTask1.id = downloadingTask1.id ∧
    ¬ idsNodup (runRepoOps [] [RepoOp.replaceAll [pendingTask1, downloadingTask1]]) := by
  exact ⟨rfl, by decide⟩

/-- Claim C6 as amended: id-uniqueness is preserved by every `upsert` and by
every snapshot replacement whose incoming list is itself duplicate-free; it
is not enforced against an arbitrary `replaceAll` input. -/
theorem repo_ops_preserve_id_uniqueness :
    ∀ (ops : List RepoOp) (init : List DownloadTask),
      idsNodup init →
      (∀ snapshot, RepoOp.replaceAll snapshot ∈ ops → idsNodup snapshot) →
      idsNodup (runRepoOps init ops) := by
  intro ops
  induction ops with
  | nil =>
    intro init h _
    simpa [runRepoOps] using h
  | cons op ops ih =>
    intro init h hsnap
    have hstep : idsNodup (applyRepoOp init op) := by
      cases op with
      | upsert t => exact upsert_preserves_idsNodup init t h
      | replaceAll s => exact hsnap s (by simp)
    exact ih (applyRepoOp init op) hstep (fun s hs => hsnap s (by simp [hs]))

/-- Witness for claim C6, over the sequence: duplicate-free snapshot
replacement, then an upsert that overwrites the id it shares. -/
theorem repo_ops_preserve_id_uniqueness_witness :
    idsNodup (runRepoOps []
      [RepoOp.replaceAll [pendingTask1], RepoOp.upsert downloadingTask1]) :=
  repo_ops_preserve_id_uniqueness
    [RepoOp.replaceAll [pendingTask1], RepoOp.upsert downloadingTask1] []
    (by decide)
    (fun s hs => by
      have : s = [pendingTask1] := by
        rcases List.mem_cons.mp hs with h | h
        · exact (RepoOp.replaceAll.injEq _ _).mp h.symm |>.symm ▸ rfl
        · exact absurd (List.mem_singleton.mp h) (by simp)
      subst this
      decide)

/-- Claim C7, counterexample: a terminate call that succeeds for an id absent
from the collection returns the server record but inserts nothing, so the
collection does not reflect `Repository.upsert` of the returned record
(`get 5` stays `none`) even though the REST call succeeded. -/
theorem terminate_success_unknown_id_not_inserted :
    (terminateTask [] 5 (.ok terminatedTask5)).tasks = [] ∧
    (terminateTask [] 5 (.ok terminatedTask5)).returned = some terminatedTask5 ∧
    getTask (terminateTask [] 5 (.ok terminatedTask5)).tasks 5 = none := by
  exact ⟨rfl, rfl, rfl⟩

/-- Claim C7 as amended: on REST failure `terminateTask` and `redownloadTask`
leave the collection unchanged, return `null` and set the error field; on
success they overwrite the first stored row with the requested id with the
server record when that id is present, and leave the collection unchanged
(no insertion) when it is absent. -/
theorem mutating_actions_update_only_found_row :
    ∀ (ts : List DownloadTask) (taskId : Nat) (task : DownloadTask) (e : String),
      ((∀ x ∈ ts, x.id ≠ taskId) →
        (terminateTask ts taskId (.ok task)).tasks = ts ∧
        (redownloadTask ts taskId (.ok task)).tasks = ts) ∧
      ((∃ x ∈ ts, x.id = taskId) →
        ∃ i, i < ts.length ∧ (∃ x, ts[i]? = some x ∧ x.id = taskId) ∧
          (terminateTask ts taskId (.ok task)).tasks = ts.set i task ∧
          (redownloadTask ts taskId (.ok task)).tasks = ts.set i task) ∧
      ((terminateTask ts taskId (.error e)).tasks = ts ∧
        (terminateTask ts taskId (.error e)).returned = none ∧
        (terminateTask ts taskId (.error e)).error = some e) ∧
      ((redownloadTask ts taskId (.error e)).tasks = ts ∧
        (redownloadTask ts taskId (.error e)).returned = none ∧
        (redownloadTask ts taskId (.error e)).error = some e) := by
  intro ts taskId task e
  refine ⟨?_, ?_, ⟨rfl, rfl, rfl⟩, ⟨rfl, rfl, rfl⟩⟩
  · intro hall
    have hnone : jsFindIndex (fun t => t.id == taskId) ts = none :=
      (jsFindIndex_eq_none_iff _ _).mpr (fun x hx => beq_false_of_ne (hall x hx))
    constructor
    · unfold terminateTask
      rw [hnone]
    · unfold redownloadTask
      rw [hnone]
  · intro hex
    obtain ⟨i, hfi⟩ := jsFindIndex_isSome_of_mem (fun t => t.id == taskId) ts (by
      obtain ⟨x, hx, hid⟩ := hex
      exact ⟨x, hx, by simp [hid]⟩)
    obtain ⟨hlt, x, hx, hpx⟩ := jsFindIndex_eq_some _ _ _ hfi
    refine ⟨i, hlt, ⟨x, hx, by simpa using hpx⟩, ?_, ?_⟩
    · unfold terminateTask
      rw [hfi]
    · unfold redownloadTask
      rw [hfi]

/-- Witness for claim C7: a successful terminate and redownload for id 5
against a collection that stores only id 1 leave the collection unchanged. -/
theorem mutating_actions_update_only_found_row_witness :
    (terminateTask [pendingTask1] 5 (.ok terminatedTask5)).tasks = [pendingTask1] ∧
    (redownloadTask [pendingTask1] 5 (.ok terminatedTask5)).tasks = [pendingTask1] :=
  (mutating_actions_update_only_found_row [pendingTask1] 5 terminatedTask5 "boom").1
    (by
      intro x hx
      rw [List.mem_singleton] at hx
      subst hx
      decide)

/-- Claim C8: a successful delete removes every row with the requested id
from the collection immediately while keeping every other row, and a
`task_update` push for the same id arriving afterwards re-inserts the pushed
record at the tail, where `getTask` finds it again. -/
theorem delete_filters_id_and_push_reinserts :
    ∀ (ts : List DownloadTask) (taskId : Nat),
      (deleteTask ts taskId (.ok ())).returned = true ∧
      (∀ t ∈ (deleteTask ts taskId (.ok ())).tasks, t.id ≠ taskId) ∧
      (∀ t ∈ ts, t.id ≠ taskId → t ∈ (deleteTask ts taskId (.ok ())).tasks) ∧
      (∀ d : DownloadTask, d.id = taskId →
        updateTaskFromWebSocket (deleteTask ts taskId (.ok ())).tasks d =
          (deleteTask ts taskId (.ok ())).tasks ++ [d] ∧
        getTask (updateTaskFromWebSocket (deleteTask ts taskId (.ok ())).tasks d)
          taskId = some d) := by
  intro ts taskId
  have hmem : ∀ t ∈ (deleteTask ts taskId (.ok ())).tasks, t.id ≠ taskId := by
    intro t ht
    have := List.mem_filter.mp ht
    simpa using this.2
  refine ⟨rfl, hmem, ?_, ?_⟩
  · intro t ht hne
    exact List.mem_filter.mpr ⟨ht, by simp [hne]⟩
  · intro d hd
    have hnone : jsFindIndex (fun t => t.id == d.id)
        (deleteTask ts taskId (.ok ())).tasks = none := by
      rw [jsFindIndex_eq_none_iff]
      intro x hx
      exact beq_false_of_ne (by rw [hd]; exact hmem x hx)
    constructor
    · unfold updateTaskFromWebSocket
      rw [hnone]
    · unfold updateTaskFromWebSocket
      rw [hnone]
      unfold getTask
      exact find?_append_singleton _ _ _
        (fun x hx => beq_false_of_ne (hmem x hx)) (by simp [hd])

/-- Witness for claim C8: deleting id 5 from a two-row collection keeps only
id 1, and a later push for id 5 is found again by `getTask`. -/
theorem delete_filters_id_and_push_reinserts_witness :
    updateTaskFromWebSocket
        (deleteTask [downloadingTask5, pendingTask1] 5 (.ok ())).tasks
        terminatedTask5 =
      (deleteTask [downloadingTask5, pendingTask1] 5 (.ok ())).tasks ++
        [terminatedTask5] ∧
    getTask (updateTaskFromWebSocket
        (deleteTask [downloadingTask5, pendingTask1] 5 (.ok ())).tasks
        terminatedTask5) 5 = some terminatedTask5 :=
  (delete_filters_id_and_push_reinserts [downloadingTask5, pendingTask1] 5).2.2.2
    terminatedTask5 rfl

/-- Claim C9, counterexample: a pushed payload with no id is not rejected —
`updateTaskFromWebSocket` finds no row whose id matches the undefined one and
pushes the payload at the tail, so the collection does not stay as it was. -/
theorem missing_id_payload_appended_not_rejected :
    noIdPayload.id = none ∧
    updateTaskFromWebSocketRaw [rawTask1] noIdPayload = [rawTask1, noIdPayload] ∧
    updateTaskFromWebSocketRaw [rawTask1] noIdPayload ≠ [rawTask1] := by
  refine ⟨rfl, rfl, by decide⟩

/-- Claim C9 as amended: an id-less payload is neither rejected nor logged;
against a collection whose rows all carry ids it is appended at the tail as
a new row, and the rows that carry ids are left unmodified. -/
theorem missing_id_payload_upserted :
    ∀ (ts : List RawTask) (d : RawTask),
      d.id = none → (∀ t ∈ ts, t.id ≠ none) →
      updateTaskFromWebSocketRaw ts d = ts ++ [d] := by
  intro ts d hd hall
  have hnone : jsFindIndex (fun t => t.id == d.id) ts = none := by
    rw [jsFindIndex_eq_none_iff]
    intro x hx
    rw [hd]
    cases hxid : x.id with
    | none => exact absurd hxid (hall x hx)
    | some v => rfl
  unfold updateTaskFromWebSocketRaw
  rw [hnone]

/-- Witness for claim C9: the id-less payload appended after the stored
id-bearing row. -/
theorem missing_id_payload_upserted_witness :
    updateTaskFromWebSocketRaw [rawTask1] noIdPayload = [rawTask1] ++ [noIdPayload] :=
  missing_id_payload_upserted [rawTask1] noIdPayload rfl (by
    intro t ht
    rw [List.mem_singleton] at ht
    subst ht
    decide)

/-- Claim C10, counterexample: when the liveness probe reports false — here a
socket object exists but its transport is down — the logout path skips
`disconnect()` entirely, leaving the socket reference and the registered
subscriber in place, so the teardown is not unconditional. -/
theorem logout_keeps_stale_socket_when_probe_false :
    logoutTeardown ⟨some ⟨false⟩, true⟩ = ⟨some ⟨false⟩, true⟩ ∧
    (⟨some ⟨false⟩, true⟩ : WSState).socket ≠ none ∧
    (⟨some ⟨false⟩, true⟩ : WSState).hasTaskUpdateCallback = true := by
  refine ⟨rfl, by decide, rfl⟩

/-- Claim C10 as amended: on logout, `disconnect()` is invoked only when
`isConnected()` reports true, in which case the transport and subscriber are
cleared and the probe reports false afterwards; when the probe already
reports false the channel state is left untouched. -/
theorem logout_disconnect_gated_on_probe :
    ∀ ws : WSState,
      (isConnected ws = true →
        logoutTeardown ws = ⟨none, false⟩ ∧
        isConnected (logoutTeardown ws) = false) ∧
      (isConnected ws = false → logoutTeardown ws = ws) := by
  intro ws
  constructor
  · intro h
    have h1 : logoutTeardown ws = ⟨none, false⟩ := by
      simp [logoutTeardown, h, wsDisconnect]
    exact ⟨h1, by rw [h1]; rfl⟩
  · intro h
    simp [logoutTeardown, h]

/-- Witness for claim C10: logout from a connected channel with a registered
subscriber clears both. -/
theorem logout_disconnect_gated_on_probe_witness :
    logoutTeardown ⟨some ⟨true⟩, true⟩ = ⟨none, false⟩ :=
  ((logout_disconnect_gated_on_probe ⟨some ⟨true⟩, true⟩).1 rfl).1

/-- Claim C2, counterexample: the `auth_response` handler resolves the
connect promise on any `{success:true}` payload, so a trace consisting of a
bare `auth_response{success:true}` — no `request_auth`, no `authenticate`
emitted — still resolves `connect` with true. -/
theorem connect_resolves_without_request_auth :
    (runConnect false (some "tk") [ServerEvent.authResponse true "ok"]).outcome =
      ConnectOutcome.resolvedTrue ∧
    (runConnect false (some "tk") [ServerEvent.authResponse true "ok"]).emittedAuth =
      false ∧
    ServerEvent.requestAuth ∉ [ServerEvent.authResponse true "ok"] := by
  refine ⟨rfl, rfl, by decide⟩

/-- Claim C2 as amended: against a server that emits `auth_response` only
after a `request_auth` (as the handshake protocol prescribes), `connect`
resolves true only when an `auth_response{success:true}` arrived, a
`request_auth` occurred, and `authenticate{token}` was emitted; a pending
connect that receives `auth_response{success:false,m}` is rejected with
"Authentication failed: m" and the socket is torn down; and a connect on an
already-connected socket resolves immediately. -/
theorem connect_handshake_contract :
    (∀ (tk : String) (events : List ServerEvent),
      (∀ b m, ServerEvent.authResponse b m ∈ events →
        ServerEvent.requestAuth ∈ events) →
      (runConnect false (some tk) events).outcome = ConnectOutcome.resolvedTrue →
      (∃ m, ServerEvent.authResponse true m ∈ events) ∧
      ServerEvent.requestAuth ∈ events ∧
      (runConnect false (some tk) events).emittedAuth = true) ∧
    (∀ (token : Option String) (s : ConnectState) (m : String),
      s.outcome = ConnectOutcome.pending →
      stepConnect token s (.authResponse false m) =
        { s with
          outcome := ConnectOutcome.rejected ("Authentication failed: " ++ m)
          socket := none }) ∧
    (∀ (token : Option String) (events : List ServerEvent),
      runConnect true token events = ⟨.resolvedTrue, false, some ⟨true⟩⟩) := by
  refine ⟨?_, ?_, fun tok evs => rfl⟩
  · intro tk events hconf hres
    have hres' :
        (events.foldl (stepConnect (some tk)) ⟨.pending, false, some ⟨false⟩⟩).outcome =
          ConnectOutcome.resolvedTrue := by
      simpa [runConnect] using hres
    rcases foldl_resolvedTrue_source (some tk) events _ hres' with habs | ⟨m, hm⟩
    · exact absurd habs (by simp)
    · have hreq := hconf true m hm
      refine ⟨⟨m, hm⟩, hreq, ?_⟩
      have := emittedAuth_after_requestAuth tk events
        ⟨ConnectOutcome.pending, false, some ⟨false⟩⟩ hreq
      simpa [runConnect] using this
  · intro token s m h
    obtain ⟨o, eAuth, so⟩ := s
    have ho : o = ConnectOutcome.pending := h
    subst ho
    rfl

/-- Witness for claim C2: the conforming trace `request_auth` then
`auth_response{success:true}` with a token present. -/
theorem connect_handshake_contract_witness :
    (∃ m, ServerEvent.authResponse true m ∈
      [ServerEvent.requestAuth, ServerEvent.authResponse true "ok"]) ∧
    ServerEvent.requestAuth ∈
      [ServerEvent.requestAuth, ServerEvent.authResponse true "ok"] ∧
    (runConnect false (some "tk")
      [ServerEvent.requestAuth, ServerEvent.authResponse true "ok"]).emittedAuth =
      true :=
  connect_handshake_contract.1 "tk"
    [ServerEvent.requestAuth, ServerEvent.authResponse true "ok"]
    (fun b m hm => by decide) rfl

/-- Claim C3, counterexample: a second `terminateTask(5)` submission entered
while the first is still in flight (the guard holds `activeTaskId = 5`)
issues its own REST call, so the two near-simultaneous submissions issue two
terminate requests, not one. -/
theorem two_inflight_terminate_calls_issue_two_requests :
    (terminateTaskHandler ⟨none, none⟩ 5 true).2 ++
        (terminateTaskHandler ⟨some 5, some ActionKind.terminate⟩ 5 true).2 =
      [RestCall.terminate 5, RestCall.terminate 5] ∧
    ((terminateTaskHandler ⟨none, none⟩ 5 true).2 ++
        (terminateTaskHandler ⟨some 5, some ActionKind.terminate⟩ 5 true).2).length ≠
      1 := by
  exact ⟨rfl, by decide⟩

/-- Claim C3 as amended: `activeTaskId`/`actionType` feed only the buttons'
loading indicators — no handler reads them before acting, so each confirmed
submission issues its REST call whatever the guard holds, and a duplicate
submission for the same id while one is in flight issues a second call. -/
theorem terminate_handler_ignores_inflight_guard :
    ∀ (g gPrior : GuardState) (taskId : Nat) (confirmed : Bool),
      terminateTaskHandler g taskId confirmed =
        terminateTaskHandler gPrior taskId confirmed ∧
      (terminateTaskHandler g taskId true).2 = [RestCall.terminate taskId] ∧
      (deleteTaskHandler g taskId true).2 = [RestCall.delete taskId] ∧
      (redownloadTaskHandler g taskId).2 = [RestCall.redownload taskId] := by
  intro g gPrior taskId confirmed
  exact ⟨rfl, rfl, rfl, rfl⟩

/-- Claim C4, counterexample: with id 5 stored in status `DOWNLOADING`, a
requested redownload still issues its REST call — the only gating in the
code is which buttons are rendered. -/
theorem redownload_on_downloading_issues_rest_call :
    getTask [downloadingTask5] 5 = some downloadingTask5 ∧
    downloadingTask5.status = TaskStatusEnum.DOWNLOADING ∧
    (redownloadTask [downloadingTask5] 5 .thrown).calls = [RestCall.redownload 5] ∧
    (redownloadTask [downloadingTask5] 5 .thrown).calls ≠ [] := by
  refine ⟨rfl, rfl, rfl, by decide⟩

/-- Claim C4 as amended: the allowed-from sets exist only as render
conditions — the terminate button is shown exactly for non-deleted rows in
{PENDING, DOWNLOADING, PROCESSING}, the redownload button exactly for
non-deleted rows in {COMPLETED, FAILED, TERMINATED}, the delete button for
every non-deleted row — while the store actions issue their REST call for
every requested id regardless of the stored status. -/
theorem status_gating_is_render_only :
    (∀ row : DownloadTask, showTerminateButton row = true ↔
      row.deleted = false ∧
        row.status ∈ [TaskStatusEnum.PENDING, TaskStatusEnum.DOWNLOADING,
          TaskStatusEnum.PROCESSING]) ∧
    (∀ row : DownloadTask, showRedownloadButton row = true ↔
      row.deleted = false ∧
        row.status ∈ [TaskStatusEnum.COMPLETED, TaskStatusEnum.FAILED,
          TaskStatusEnum.TERMINATED]) ∧
    (∀ row : DownloadTask, showDeleteButton row = true ↔ row.deleted = false) ∧
    (∀ (ts : List DownloadTask) (taskId : Nat) (response : RestResult DownloadTask),
      (redownloadTask ts taskId response).calls = [RestCall.redownload taskId] ∧
      (terminateTask ts taskId response).calls = [RestCall.terminate taskId]) := by
  refine ⟨?_, ?_, ?_, ?_⟩
  · intro row
    obtain ⟨id, uid, nid, nov, cel, st, pr, msg, ca, ua, del⟩ := row
    cases st <;> cases del <;> simp [showTerminateButton]
  · intro row
    obtain ⟨id, uid, nid, nov, cel, st, pr, msg, ca, ua, del⟩ := row
    cases st <;> cases del <;> simp [showRedownloadButton]
  · intro row
    obtain ⟨id, uid, nid, nov, cel, st, pr, msg, ca, ua, del⟩ := row
    cases del <;> simp [showDeleteButton]
  · intro ts taskId response
    cases response with
    | ok task =>
      cases h : jsFindIndex (fun t => t.id == taskId) ts with
      | some i =>
        constructor
        · unfold redownloadTask
          rw [h]
        · unfold terminateTask
          rw [h]
      | none =>
        constructor
        · unfold redownloadTask
          rw [h]
        · unfold terminateTask
          rw [h]
    | error e => exact ⟨rfl, rfl⟩
    | thrown => exact ⟨rfl, rfl⟩
